import Mathlib

/-! Shallow embedding of the timetrack command line tool, file
    src/timetrack/cli.py of the repository frozenbanana/timetrack.

    Modelling conventions.
    Wall clock instants and durations are rationals counting seconds; Python
    float values are modelled as exact rationals.  An ISO-8601 timestamp
    string is abstracted by the rational instant it denotes; the type TimeRep
    distinguishes a datetime object from its string form, because session
    records hold sometimes one, sometimes the other.  Python dicts are
    insertion ordered association lists with unique keys.  A raised
    click.ClickException is modelled by the Except.error branch carrying the
    message string; every operation returns the state as of the moment of the
    raise together with the error, so that an unchanged state is provable.
    The library call datetime.datetime.now() is passed explicitly as a
    parameter named now, and the library call date.isocalendar building the
    ISO week number is an arbitrary function wk passed explicitly. -/

deriving instance DecidableEq for Except

/-- A timestamp as held in a Python field: either a datetime object or an
ISO string; both are abstracted by the instant (seconds) they denote. -/
inductive TimeRep where
  | dt (t : ℚ)
  | iso (t : ℚ)
  deriving DecidableEq

/-- The instant denoted by a timestamp representation. -/
def TimeRep.val : TimeRep → ℚ
  | .dt t => t
  | .iso t => t

/-- One value of the active_timers dict, lines 91 to 99 of cli.py.  The
start_time and pause_time fields are ISO strings or None in the source and
are abstracted by the instant; initial_start_time is a key that no operation
ever writes (none models an absent key, which dict.get reads as None). -/
structure TimerData where
  start_time : Option ℚ
  main_category : String
  subcategory : String
  description : String
  accumulated_seconds : ℚ
  paused : Bool
  pause_time : Option ℚ
  initial_start_time : Option ℚ
  deriving DecidableEq

/-- One element of the sessions list, lines 232 to 242 of cli.py. -/
structure Session where
  id : ℕ
  main_category : String
  subcategory : String
  description : String
  start_time : TimeRep
  end_time : TimeRep
  duration : String
  duration_hours : ℚ
  week : ℕ
  deriving DecidableEq

/-- The mutable state of the TimeTracker class: the active_timers dict and
the sessions list. -/
structure TimeTracker where
  active_timers : List (String × TimerData)
  sessions : List Session
  deriving DecidableEq

/-- The category taxonomy: main category name to ordered subcategory list. -/
abbrev Cats := List (String × List String)

/-- Model of the Python rendering str(datetime.timedelta(seconds = s)).
The concrete digits of the string never matter to the claims; the rendering
is injective, which is all that is used. -/
def tdStr (seconds : ℚ) : String := toString seconds

/-- Lookup in a Python dict modelled as an association list. -/
def alookup {α : Type} (k : String) : List (String × α) → Option α
  | [] => none
  | (k0, v) :: rest => if k0 = k then some v else alookup k rest

/-- Python dict assignment d[k] = v: update in place if the key exists,
else append at the end. -/
def dictInsert {α : Type} (k : String) (v : α) : List (String × α) → List (String × α)
  | [] => [(k, v)]
  | (k0, v0) :: rest => if k0 = k then (k, v) :: rest else (k0, v0) :: dictInsert k v rest

/-- Python del d[k]: remove the entry with the key (first occurrence). -/
def dictErase {α : Type} (k : String) : List (String × α) → List (String × α)
  | [] => []
  | (k0, v0) :: rest => if k0 = k then rest else (k0, v0) :: dictErase k rest

/-- TimeTracker.get_subcategories, lines 59 to 60: categories.get(main, []). -/
def get_subcategories (cats : Cats) (main : String) : List String :=
  (alookup main cats).getD []

/-- The message of the invalid subcategory ClickException raised at lines
64 to 67 and 338 to 341 of cli.py. -/
def invalidSubcatMsg (cats : Cats) (main : String) : String :=
  "Invalid subcategory! Valid subcategories for " ++ main ++ " are:\n" ++
    String.intercalate "\n" ((get_subcategories cats main).map (fun sub => "- " ++ sub))

/-- TimeTracker.pause_timer, lines 103 to 123 of cli.py. -/
def pause_timer (now : ℚ) (tr : TimeTracker) : TimeTracker × Except String Unit :=
  match tr.active_timers with
  | [] => (tr, Except.error "No active timers to pause.")
  | _ :: _ :: _ => (tr, Except.error "Multiple timers active. Please specify which one to pause.")
  | [(key, td)] =>
    if td.paused then
      (tr, Except.error ("Timer \x27" ++ key ++ "\x27 is already paused."))
    else
      match td.start_time with
      | none => (tr, Except.error "TypeError: fromisoformat applied to None")
      | some st =>
        let elapsed := now - st
        let td2 : TimerData :=
          { td with
            accumulated_seconds := td.accumulated_seconds + elapsed
            paused := true
            pause_time := some now
            start_time := none }
        ({ tr with active_timers := [(key, td2)] }, Except.ok ())

/-- TimeTracker.resume_timer, lines 125 to 141 of cli.py. -/
def resume_timer (now : ℚ) (tr : TimeTracker) : TimeTracker × Except String Unit :=
  match tr.active_timers with
  | [] => (tr, Except.error "No paused timers to resume.")
  | _ :: _ :: _ => (tr, Except.error "Multiple timers active. Please specify which one to resume.")
  | [(key, td)] =>
    if !td.paused then
      (tr, Except.error ("Timer \x27" ++ key ++ "\x27 is not paused."))
    else
      let td2 : TimerData :=
        { td with
          paused := false
          start_time := some now
          pause_time := none }
      ({ tr with active_timers := [(key, td2)] }, Except.ok ())

/-- TimeTracker.end_timer, lines 202 to 251 of cli.py.  The Python
truthiness test on the two optional arguments is modelled exactly: a missing
or empty string argument falls through to the sole-timer branch. -/
def end_timer (wk : ℚ → ℕ) (now : ℚ) (mainOpt subOpt : Option String) (tr : TimeTracker) :
    TimeTracker × Except String Unit :=
  match tr.active_timers with
  | [] => (tr, Except.error "No active timers!")
  | (k0, _) :: restTimers =>
    match
      (match mainOpt, subOpt with
       | some m, some s =>
         if m = "" ∨ s = "" then
           if restTimers.isEmpty then Except.ok k0
           else Except.error "Multiple timers active. Please specify category and subcategory."
         else Except.ok (m ++ " - " ++ s)
       | _, _ =>
         if restTimers.isEmpty then Except.ok k0
         else Except.error "Multiple timers active. Please specify category and subcategory.") with
    | Except.error e => (tr, Except.error e)
    | Except.ok key =>
      match alookup key tr.active_timers with
      | none => (tr, Except.error ("No active timer found for \x27" ++ key ++ "\x27"))
      | some td =>
        match
          (if !td.paused then
            match td.start_time with
            | none => Except.error "TypeError: fromisoformat applied to None"
            | some st => Except.ok (td.accumulated_seconds + (now - st), st, now)
          else
            match td.pause_time with
            | none => Except.error "TypeError: fromisoformat applied to None"
            | some pt =>
              Except.ok (td.accumulated_seconds, (td.initial_start_time).getD pt, pt) :
            Except String (ℚ × ℚ × ℚ)) with
        | Except.error e => (tr, Except.error e)
        | Except.ok (total, st, endT) =>
          ({ active_timers := dictErase key tr.active_timers
             sessions := tr.sessions ++ [{
               id := tr.sessions.length + 1
               main_category := td.main_category
               subcategory := td.subcategory
               description := td.description
               start_time := TimeRep.iso st
               end_time := TimeRep.iso endT
               duration := tdStr total
               duration_hours := total / 3600
               week := wk st }] }, Except.ok ())

/-- The loop at lines 78 to 82 of cli.py: end every active timer, iterating
over a snapshot of the keys and propagating any raise. -/
def stopAll (wk : ℚ → ℕ) (now : ℚ) : List String → TimeTracker → TimeTracker × Except String Unit
  | [], tr => (tr, Except.ok ())
  | k :: ks, tr =>
    match alookup k tr.active_timers with
    | none => (tr, Except.error "KeyError")
    | some td =>
      match end_timer wk now (some td.main_category) (some td.subcategory) tr with
      | (tr2, Except.ok _) => stopAll wk now ks tr2
      | (tr2, Except.error e) => (tr2, Except.error e)

/-- TimeTracker.start_timer, lines 62 to 101 of cli.py.  The interactive
click.confirm answer is the explicit parameter confirmStop. -/
def start_timer (cats : Cats) (wk : ℚ → ℕ) (now : ℚ) (main sub desc : String)
    (offset_minutes : ℚ) (confirmStop : Bool) (tr : TimeTracker) :
    TimeTracker × Except String Unit :=
  if sub ∈ get_subcategories cats main then
    let proceed : TimeTracker × Except String Unit :=
      if tr.active_timers.isEmpty then (tr, Except.ok ())
      else if confirmStop then stopAll wk now (tr.active_timers.map Prod.fst) tr
      else (tr, Except.error "Please stop the current timer before starting a new one.")
    match proceed with
    | (tr2, Except.error e) => (tr2, Except.error e)
    | (tr2, Except.ok _) =>
      let start := now - offset_minutes * 60
      let key := main ++ " - " ++ sub
      let td : TimerData :=
        { start_time := some start
          main_category := main
          subcategory := sub
          description := desc
          accumulated_seconds := 0
          paused := false
          pause_time := none
          initial_start_time := none }
      ({ tr2 with active_timers := dictInsert key td tr2.active_timers }, Except.ok ())
  else
    (tr, Except.error (invalidSubcatMsg cats main))

/-- TimeTracker.add_session, lines 335 to 360 of cli.py.  The date argument
is a datetime object, so the stored timestamps are datetime objects. -/
def add_session (cats : Cats) (wk : ℚ → ℕ) (date : ℚ) (duration_hours : ℚ)
    (main sub desc : String) (tr : TimeTracker) : TimeTracker × Except String Session :=
  if sub ∈ get_subcategories cats main then
    let sess : Session :=
      { id := tr.sessions.length + 1
        main_category := main
        subcategory := sub
        description := desc
        start_time := TimeRep.dt date
        end_time := TimeRep.dt (date + duration_hours * 3600)
        duration := tdStr (duration_hours * 3600)
        duration_hours := duration_hours
        week := wk date }
    ({ tr with sessions := tr.sessions ++ [sess] }, Except.ok sess)
  else
    (tr, Except.error (invalidSubcatMsg cats main))

/-- The in-place field updates of TimeTracker.edit_session, lines 283 to
293 of cli.py: set duration_hours, set the duration string, convert a string
start_time to a datetime object, recompute end_time from the start time. -/
def updateSessionFields (h : ℚ) (s : Session) : Session :=
  let delta := h * 3600
  let s1 := { s with duration_hours := h, duration := tdStr delta }
  let s2 :=
    match s1.start_time with
    | TimeRep.iso t => { s1 with start_time := TimeRep.dt t }
    | TimeRep.dt _ => s1
  { s2 with end_time := TimeRep.dt (s2.start_time.val + delta) }

/-- The combination of next(...) at line 279 and the in-place mutation of the
found session inside the list: returns the updated list and the updated
session, or none when no session has the id. -/
def editSessions (session_id : ℕ) (h : ℚ) : List Session → Option (List Session × Session)
  | [] => none
  | s :: rest =>
    if s.id = session_id then
      let s2 := updateSessionFields h s
      some (s2 :: rest, s2)
    else
      match editSessions session_id h rest with
      | none => none
      | some (rest2, t) => some (s :: rest2, t)

/-- TimeTracker.edit_session, lines 277 to 296 of cli.py. -/
def edit_session (session_id : ℕ) (duration_hours : ℚ) (tr : TimeTracker) :
    TimeTracker × Except String Session :=
  match editSessions session_id duration_hours tr.sessions with
  | none => (tr, Except.error ("No session found with id " ++ toString session_id))
  | some (ss, s2) => ({ tr with sessions := ss }, Except.ok s2)

/-- The combination of next(...) at line 300 and list.remove at line 304:
remove the first session carrying the id, or none when there is none. -/
def removeFirst (session_id : ℕ) : List Session → Option (List Session)
  | [] => none
  | s :: rest =>
    if s.id = session_id then some rest
    else (removeFirst session_id rest).map (fun l => s :: l)

/-- TimeTracker.remove_session, lines 298 to 306 of cli.py. -/
def remove_session (session_id : ℕ) (tr : TimeTracker) : TimeTracker × Except String Bool :=
  match removeFirst session_id tr.sessions with
  | none => (tr, Except.error ("No session found with id " ++ toString session_id))
  | some ss => ({ tr with sessions := ss }, Except.ok true)

/-- The Python dict update category_totals[k] = category_totals.get(k, 0) + v
at line 474 of cli.py: update in place, else append. -/
def bumpTotal (k : String) (v : ℚ) : List (String × ℚ) → List (String × ℚ)
  | [] => [(k, v)]
  | (k0, v0) :: rest => if k0 = k then (k0, v0 + v) :: rest else (k0, v0) :: bumpTotal k v rest

/-- The nested dict update of subcategory_totals at lines 476 to 478. -/
def bumpSub (mc sc : String) (v : ℚ) :
    List (String × List (String × ℚ)) → List (String × List (String × ℚ))
  | [] => [(mc, bumpTotal sc v [])]
  | (k0, m0) :: rest =>
    if k0 = mc then (k0, bumpTotal sc v m0) :: rest else (k0, m0) :: bumpSub mc sc v rest

/-- The grouping loop of TimeTracker._generate_summary_report, lines 469 to
478 of cli.py: one pass over the sessions filling category_totals and
subcategory_totals. -/
def summaryTotals (sessions : List Session) :
    List (String × ℚ) × List (String × List (String × ℚ)) :=
  sessions.foldl
    (fun acc s =>
      (bumpTotal s.main_category s.duration_hours acc.1,
       bumpSub s.main_category s.subcategory s.duration_hours acc.2))
    ([], [])

/-- Line 481 of cli.py: total_hours = sum(category_totals.values()). -/
def summaryGrandTotal (sessions : List Session) : ℚ :=
  ((summaryTotals sessions).1.map Prod.snd).sum

/-- The printing loop of lines 482 to 487 of cli.py: for each taxonomy main
category in declaration order that occurs in category_totals, the printed
group of subcategory lines and the printed main category subtotal. -/
def summaryPrintedGroups (cats : Cats) (sessions : List Session) :
    List (String × List (String × ℚ) × ℚ) :=
  (cats.map Prod.fst).filterMap (fun mc =>
    match alookup mc (summaryTotals sessions).1 with
    | none => none
    | some tot => some (mc, (alookup mc (summaryTotals sessions).2).getD [], tot))

/-- The sum of the per main category subtotals that the summary report
prints. -/
def summaryPrintedSum (cats : Cats) (sessions : List Session) : ℚ :=
  ((summaryPrintedGroups cats sessions).map (fun g => g.2.2)).sum

/-- A JSON value as produced by json.dump with default=str.  The constructor
jtimestr t stands for a JSON string whose text is the rendering of the
instant t (isoformat or str of a datetime); plain strings use jstr. -/
inductive JVal where
  | jnull
  | jbool (b : Bool)
  | jnum (q : ℚ)
  | jstr (s : String)
  | jtimestr (t : ℚ)
  | jarr (xs : List JVal)
  | jobj (fields : List (String × JVal))

/-- Serialization of an optional timer timestamp (ISO string or None). -/
def encodeOptTime : Option ℚ → JVal
  | none => JVal.jnull
  | some t => JVal.jtimestr t

/-- json.dump of a session timestamp: a datetime object goes through
default=str, an ISO string is written as the string it is; either way the
file holds a string rendering the same instant. -/
def encodeTimeRep : TimeRep → JVal
  | TimeRep.dt t => JVal.jtimestr t
  | TimeRep.iso t => JVal.jtimestr t

/-- json.dump of one active_timers entry.  The initial_start_time key is
emitted only when present, mirroring the dict built at lines 91 to 99. -/
def encodeTimerData (td : TimerData) : JVal :=
  JVal.jobj
    ([("start_time", encodeOptTime td.start_time),
      ("main_category", JVal.jstr td.main_category),
      ("subcategory", JVal.jstr td.subcategory),
      ("description", JVal.jstr td.description),
      ("accumulated_seconds", JVal.jnum td.accumulated_seconds),
      ("paused", JVal.jbool td.paused),
      ("pause_time", encodeOptTime td.pause_time)] ++
      (match td.initial_start_time with
       | none => []
       | some t => [("initial_start_time", JVal.jtimestr t)]))

/-- json.dump of one session record. -/
def encodeSession (s : Session) : JVal :=
  JVal.jobj
    [("id", JVal.jnum s.id),
     ("main_category", JVal.jstr s.main_category),
     ("subcategory", JVal.jstr s.subcategory),
     ("description", JVal.jstr s.description),
     ("start_time", encodeTimeRep s.start_time),
     ("end_time", encodeTimeRep s.end_time),
     ("duration", JVal.jstr s.duration),
     ("duration_hours", JVal.jnum s.duration_hours),
     ("week", JVal.jnum s.week)]

/-- TimeTracker._save_data, lines 51 to 57 of cli.py: the JSON document with
the two top level keys. -/
def save_data (tr : TimeTracker) : JVal :=
  JVal.jobj
    [("active_timers", JVal.jobj (tr.active_timers.map (fun p => (p.1, encodeTimerData p.2)))),
     ("sessions", JVal.jarr (tr.sessions.map encodeSession))]

/-- Reading back an optional timer timestamp. -/
def decodeOptTime : JVal → Option (Option ℚ)
  | JVal.jnull => some none
  | JVal.jtimestr t => some (some t)
  | _ => none

/-- Reading back a session timestamp: json.load leaves it a string. -/
def decodeTimeRep : JVal → Option TimeRep
  | JVal.jtimestr t => some (TimeRep.iso t)
  | _ => none

/-- Reading back a plain string field. -/
def decodeStr : JVal → Option String
  | JVal.jstr s => some s
  | _ => none

/-- Reading back a float field. -/
def decodeNum : JVal → Option ℚ
  | JVal.jnum q => some q
  | _ => none

/-- Reading back an int field (session id, week). -/
def decodeNat : JVal → Option ℕ
  | JVal.jnum q => if q.den = 1 ∧ 0 ≤ q.num then some q.num.toNat else none
  | _ => none

/-- Typed reading of one active_timers entry out of the parsed JSON; the
missing initial_start_time key reads back as None, as dict.get does. -/
def decodeTimerData : JVal → Option TimerData
  | JVal.jobj fs => do
    let st ← (alookup "start_time" fs).bind decodeOptTime
    let mc ← (alookup "main_category" fs).bind decodeStr
    let sc ← (alookup "subcategory" fs).bind decodeStr
    let de ← (alookup "description" fs).bind decodeStr
    let ac ← (alookup "accumulated_seconds" fs).bind decodeNum
    let pa ← match alookup "paused" fs with
             | some (JVal.jbool b) => some b
             | _ => none
    let pt ← (alookup "pause_time" fs).bind decodeOptTime
    let ini : Option ℚ :=
      match alookup "initial_start_time" fs with
      | some (JVal.jtimestr t) => some t
      | _ => none
    pure ⟨st, mc, sc, de, ac, pa, pt, ini⟩
  | _ => none

/-- Typed reading of one session record out of the parsed JSON. -/
def decodeSession : JVal → Option Session
  | JVal.jobj fs => do
    let i ← (alookup "id" fs).bind decodeNat
    let mc ← (alookup "main_category" fs).bind decodeStr
    let sc ← (alookup "subcategory" fs).bind decodeStr
    let de ← (alookup "description" fs).bind decodeStr
    let st ← (alookup "start_time" fs).bind decodeTimeRep
    let en ← (alookup "end_time" fs).bind decodeTimeRep
    let du ← (alookup "duration" fs).bind decodeStr
    let dh ← (alookup "duration_hours" fs).bind decodeNum
    let wk ← (alookup "week" fs).bind decodeNat
    pure ⟨i, mc, sc, de, st, en, du, dh, wk⟩
  | _ => none

/-- TimeTracker._load_data, lines 17 to 25 of cli.py: read the document,
defaulting the two collections when a key is absent. -/
def load_data (j : JVal) : Option TimeTracker := do
  match j with
  | JVal.jobj fs =>
    let timers ←
      match (alookup "active_timers" fs).getD (JVal.jobj []) with
      | JVal.jobj tfs =>
        tfs.mapM (fun p => (decodeTimerData p.2).map (fun td => (p.1, td)))
      | _ => none
    let sess ←
      match (alookup "sessions" fs).getD (JVal.jarr []) with
      | JVal.jarr xs => xs.mapM decodeSession
      | _ => none
    pure ⟨timers, sess⟩
  | _ => none

/-- The residue of a save and load round trip on a session: the timestamp
fields come back as strings denoting the same instants. -/
def stringifySession (s : Session) : Session :=
  { s with
    start_time := TimeRep.iso s.start_time.val
    end_time := TimeRep.iso s.end_time.val }

/-- A concrete session record used in concrete instances of the theorems. -/
def sampleSession (i : ℕ) (mc sc : String) (hrs : ℚ) : Session :=
  { id := i
    main_category := mc
    subcategory := sc
    description := ""
    start_time := TimeRep.iso 0
    end_time := TimeRep.iso (hrs * 3600)
    duration := tdStr (hrs * 3600)
    duration_hours := hrs
    week := 1 }

theorem removeFirst_of_not_mem (idv : ℕ) (l : List Session)
    (h : ∀ s ∈ l, s.id ≠ idv) : removeFirst idv l = none := by
  induction l with
  | nil => rfl
  | cons a l ih =>
    have ha : a.id ≠ idv := h a (List.mem_cons_self a l)
    simp [removeFirst, ha, ih (fun s hs => h s (List.mem_cons_of_mem a hs))]

theorem removeFirst_append (idv : ℕ) (pre post : List Session) (s0 : Session)
    (hid : s0.id = idv) (hpre : ∀ s ∈ pre, s.id ≠ idv) :
    removeFirst idv (pre ++ s0 :: post) = some (pre ++ post) := by
  induction pre with
  | nil => simp [removeFirst, hid]
  | cons a pre ih =>
    have ha : a.id ≠ idv := hpre a (List.mem_cons_self a pre)
    simp [removeFirst, ha, ih (fun s hs => hpre s (List.mem_cons_of_mem a hs))]

theorem updateSessionFields_idem (h : ℚ) (s : Session) :
    updateSessionFields h (updateSessionFields h s) = updateSessionFields h s := by
  obtain ⟨i, mc, sc, de, st, en, du, dh, wk⟩ := s
  cases st <;> rfl

theorem updateSessionFields_id (h : ℚ) (s : Session) :
    (updateSessionFields h s).id = s.id := by
  obtain ⟨i, mc, sc, de, st, en, du, dh, wk⟩ := s
  cases st <;> rfl

theorem editSessions_append (idv : ℕ) (h : ℚ) (pre post : List Session) (s0 : Session)
    (hid : s0.id = idv) (hpre : ∀ s ∈ pre, s.id ≠ idv) :
    editSessions idv h (pre ++ s0 :: post) =
      some (pre ++ updateSessionFields h s0 :: post, updateSessionFields h s0) := by
  induction pre with
  | nil => simp [editSessions, hid]
  | cons a pre ih =>
    have ha : a.id ≠ idv := hpre a (List.mem_cons_self a pre)
    simp [editSessions, ha, ih (fun s hs => hpre s (List.mem_cons_of_mem a hs))]

theorem editSessions_idem (idv : ℕ) (h : ℚ) :
    ∀ (ss ss1 : List Session) (s1 : Session),
      editSessions idv h ss = some (ss1, s1) → editSessions idv h ss1 = some (ss1, s1) := by
  intro ss
  induction ss with
  | nil => intro ss1 s1 he; simp [editSessions] at he
  | cons a rest ih =>
    intro ss1 s1 he
    by_cases ha : a.id = idv
    · simp [editSessions, ha] at he
      obtain ⟨h1, h2⟩ := he
      subst h1; subst h2
      have hupd : (updateSessionFields h a).id = idv := by rw [updateSessionFields_id, ha]
      simp [editSessions, hupd, updateSessionFields_idem]
    · simp [editSessions, ha] at he
      cases hr : editSessions idv h rest with
      | none => rw [hr] at he; simp at he
      | some v =>
        obtain ⟨rest2, t⟩ := v
        rw [hr] at he
        simp at he
        obtain ⟨h1, h2⟩ := he
        subst h1; subst h2
        simp [editSessions, ha, ih rest2 t hr]

/-- Claim C4 counterexample: the claim quantifies over every session list,
but with two sessions both carrying id 1 (a state the id reuse bug of
end_timer and add_session can produce) the second remove_session call
succeeds instead of failing with the SessionNotFound error. -/
theorem remove_twice_cex :
    (remove_session 1 ⟨[], [sampleSession 1 "Sales" "Direct sales" 1,
        sampleSession 1 "Sales" "Direct sales" 2]⟩).2 = Except.ok true ∧
    (remove_session 1 (remove_session 1 ⟨[], [sampleSession 1 "Sales" "Direct sales" 1,
        sampleSession 1 "Sales" "Direct sales" 2]⟩).1).2 = Except.ok true := by
  exact ⟨rfl, rfl⟩

/-- Claim C4, amended: when exactly one session in the list carries the id,
remove_session succeeds removing it, and an immediately repeated call fails
with the SessionNotFound message while leaving the state unchanged. -/
theorem remove_twice_claim (tr : TimeTracker) (idv : ℕ) (pre post : List Session)
    (s0 : Session) (hsp : tr.sessions = pre ++ s0 :: post) (hid : s0.id = idv)
    (hpre : ∀ s ∈ pre, s.id ≠ idv) (hpost : ∀ s ∈ post, s.id ≠ idv) :
    remove_session idv tr = ({ tr with sessions := pre ++ post }, Except.ok true) ∧
    remove_session idv { tr with sessions := pre ++ post } =
      ({ tr with sessions := pre ++ post },
       Except.error ("No session found with id " ++ toString idv)) := by
  constructor
  · unfold remove_session
    rw [hsp, removeFirst_append idv pre post s0 hid hpre]
  · unfold remove_session
    have hnone : removeFirst idv (pre ++ post) = none := by
      refine removeFirst_of_not_mem idv (pre ++ post) ?_
      intro s hs
      rcases List.mem_append.1 hs with h1 | h2
      · exact hpre s h1
      · exact hpost s h2
    rw [show ({ tr with sessions := pre ++ post } : TimeTracker).sessions = pre ++ post from rfl,
      hnone]

/-- Concrete instance of the amended claim C4. -/
theorem remove_twice_claim_witness :
    remove_session 2 ⟨[], [sampleSession 1 "Sales" "Direct sales" 1,
        sampleSession 2 "Sales" "Direct sales" 1]⟩ =
      (⟨[], [sampleSession 1 "Sales" "Direct sales" 1]⟩, Except.ok true) ∧
    remove_session 2 ⟨[], [sampleSession 1 "Sales" "Direct sales" 1]⟩ =
      (⟨[], [sampleSession 1 "Sales" "Direct sales" 1]⟩,
       Except.error ("No session found with id " ++ toString 2)) :=
  remove_twice_claim ⟨[], [sampleSession 1 "Sales" "Direct sales" 1,
      sampleSession 2 "Sales" "Direct sales" 1]⟩ 2
    [sampleSession 1 "Sales" "Direct sales" 1] [] (sampleSession 2 "Sales" "Direct sales" 1)
    rfl rfl (by decide) (by decide)

/-- Claim C5: edit_session is idempotent; a second call with the same id and
hours returns the same state and the same session record as the first, in
particular the same stored duration_hours, duration string and end time. -/
theorem edit_idem_claim (idv : ℕ) (h : ℚ) (tr tr1 : TimeTracker) (s1 : Session)
    (he : edit_session idv h tr = (tr1, Except.ok s1)) :
    edit_session idv h tr1 = (tr1, Except.ok s1) := by
  unfold edit_session at he ⊢
  cases hr : editSessions idv h tr.sessions with
  | none => rw [hr] at he; simp at he
  | some v =>
    obtain ⟨ss, s2⟩ := v
    rw [hr] at he
    simp only [Prod.mk.injEq, Except.ok.injEq] at he
    obtain ⟨h1, h2⟩ := he
    subst h1; subst h2
    have hss : ({ tr with sessions := ss } : TimeTracker).sessions = ss := rfl
    rw [hss, editSessions_idem idv h tr.sessions ss s2 hr]

/-- Concrete instance of claim C5. -/
theorem edit_idem_claim_witness :
    edit_session 1 2 (edit_session 1 2 ⟨[], [sampleSession 1 "Sales" "Direct sales" 1]⟩).1 =
      ((edit_session 1 2 ⟨[], [sampleSession 1 "Sales" "Direct sales" 1]⟩).1,
       Except.ok (updateSessionFields 2 (sampleSession 1 "Sales" "Direct sales" 1))) :=
  edit_idem_claim 1 2 ⟨[], [sampleSession 1 "Sales" "Direct sales" 1]⟩
    (edit_session 1 2 ⟨[], [sampleSession 1 "Sales" "Direct sales" 1]⟩).1
    (updateSessionFields 2 (sampleSession 1 "Sales" "Direct sales" 1)) rfl

/-- Claim C9: edit_session rewrites only the duration_hours, duration string,
start time representation and end time of the first session carrying the id,
the end time being the existing start instant plus the new hours; its id,
categories, description, start instant and week, and every other session,
are untouched. -/
theorem edit_frame_claim (tr : TimeTracker) (idv : ℕ) (h : ℚ) (pre post : List Session)
    (s0 : Session) (hsp : tr.sessions = pre ++ s0 :: post) (hid : s0.id = idv)
    (hpre : ∀ s ∈ pre, s.id ≠ idv) :
    edit_session idv h tr =
      ({ tr with sessions := pre ++ updateSessionFields h s0 :: post },
       Except.ok (updateSessionFields h s0)) ∧
    updateSessionFields h s0 =
      { s0 with
        duration_hours := h
        duration := tdStr (h * 3600)
        start_time := TimeRep.dt s0.start_time.val
        end_time := TimeRep.dt (s0.start_time.val + h * 3600) } := by
  constructor
  · unfold edit_session
    rw [hsp, editSessions_append idv h pre post s0 hid hpre]
  · obtain ⟨i, mc, sc, de, st, en, du, dh, wk⟩ := s0
    cases st <;> rfl

/-- Concrete instance of claim C9. -/
theorem edit_frame_claim_witness :
    edit_session 1 2 ⟨[], [sampleSession 1 "Sales" "Direct sales" 1]⟩ =
      (⟨[], [updateSessionFields 2 (sampleSession 1 "Sales" "Direct sales" 1)]⟩,
       Except.ok (updateSessionFields 2 (sampleSession 1 "Sales" "Direct sales" 1))) ∧
    updateSessionFields 2 (sampleSession 1 "Sales" "Direct sales" 1) =
      { sampleSession 1 "Sales" "Direct sales" 1 with
        duration_hours := 2
        duration := tdStr (2 * 3600)
        start_time := TimeRep.dt (sampleSession 1 "Sales" "Direct sales" 1).start_time.val
        end_time := TimeRep.dt
          ((sampleSession 1 "Sales" "Direct sales" 1).start_time.val + 2 * 3600) } :=
  edit_frame_claim ⟨[], [sampleSession 1 "Sales" "Direct sales" 1]⟩ 1 2 [] []
    (sampleSession 1 "Sales" "Direct sales" 1) rfl rfl (by decide)

/-- Claim C6: a subcategory outside the taxonomy list of the main category
makes start_timer and add_session fail with the message built from exactly
the valid subcategories of that main category, the state coming back
unchanged. -/
theorem invalid_subcategory_claim (cats : Cats) (wk : ℚ → ℕ) (now date hrs off : ℚ)
    (main sub desc : String) (confirm : Bool) (tr : TimeTracker)
    (hsub : sub ∉ get_subcategories cats main) :
    start_timer cats wk now main sub desc off confirm tr =
      (tr, Except.error (invalidSubcatMsg cats main)) ∧
    add_session cats wk date hrs main sub desc tr =
      (tr, Except.error (invalidSubcatMsg cats main)) := by
  constructor
  · simp [start_timer, hsub]
  · simp [add_session, hsub]

/-- Concrete instance of claim C6. -/
theorem invalid_subcategory_claim_witness :
    start_timer [("Sales", ["Direct sales"])] (fun _ => 1) 0 "Sales" "Nope" "" 0 false
        ⟨[], []⟩ =
      (⟨[], []⟩, Except.error (invalidSubcatMsg [("Sales", ["Direct sales"])] "Sales")) ∧
    add_session [("Sales", ["Direct sales"])] (fun _ => 1) 0 1 "Sales" "Nope" ""
        ⟨[], []⟩ =
      (⟨[], []⟩, Except.error (invalidSubcatMsg [("Sales", ["Direct sales"])] "Sales")) :=
  invalid_subcategory_claim [("Sales", ["Direct sales"])] (fun _ => 1) 0 0 1 0
    "Sales" "Nope" "" false ⟨[], []⟩ (by decide)

/-- Claim C2: pause_timer raises the no active timer error on an empty
active_timers dict, the ambiguity error when more than one timer is active,
and the already paused error when the sole timer is paused, each leaving the
state unchanged; on a sole running timer it succeeds, adds the wall clock
seconds elapsed since the start instant to the accumulated total, clears the
start time, sets the paused flag and records the pause instant. -/
theorem pause_timer_claim (now : ℚ) (tr : TimeTracker) :
    (tr.active_timers = [] →
      pause_timer now tr = (tr, Except.error "No active timers to pause.")) ∧
    (∀ p q rest, tr.active_timers = p :: q :: rest →
      pause_timer now tr =
        (tr, Except.error "Multiple timers active. Please specify which one to pause.")) ∧
    (∀ k td, tr.active_timers = [(k, td)] → td.paused = true →
      pause_timer now tr =
        (tr, Except.error ("Timer \x27" ++ k ++ "\x27 is already paused."))) ∧
    (∀ k td st, tr.active_timers = [(k, td)] → td.paused = false → td.start_time = some st →
      pause_timer now tr =
        ({ tr with active_timers := [(k,
            { td with
              accumulated_seconds := td.accumulated_seconds + (now - st)
              paused := true
              pause_time := some now
              start_time := none })] }, Except.ok ())) := by
  refine ⟨fun h => ?_, fun p q rest h => ?_, fun k td h hp => ?_, fun k td st h hp hst => ?_⟩
  · simp [pause_timer, h]
  · simp [pause_timer, h]
  · simp [pause_timer, h, hp]
  · simp [pause_timer, h, hp, hst]

/-- Concrete instance of the success branch of claim C2. -/
theorem pause_timer_claim_witness :
    pause_timer 10 ⟨[("Sales - Direct sales",
        ⟨some 4, "Sales", "Direct sales", "", 1, false, none, none⟩)], []⟩ =
      (⟨[("Sales - Direct sales",
          ⟨none, "Sales", "Direct sales", "", 1 + (10 - 4), true, some 10, none⟩)], []⟩,
       Except.ok ()) :=
  (pause_timer_claim 10 ⟨[("Sales - Direct sales",
      ⟨some 4, "Sales", "Direct sales", "", 1, false, none, none⟩)], []⟩).2.2.2
    "Sales - Direct sales" ⟨some 4, "Sales", "Direct sales", "", 1, false, none, none⟩ 4
    rfl rfl rfl

/-- Helper: the full behaviour of end_timer when the targeted timer is
paused: the accumulated seconds alone become the duration, the recorded
pause instant becomes the session end time, and the start instant is the
initial_start_time key when present, else the pause instant. -/
theorem end_timer_paused_eq (wk : ℚ → ℕ) (now : ℚ) (m s : String) (tr : TimeTracker)
    (td : TimerData) (p : ℚ) (hm : m ≠ "") (hs : s ≠ "")
    (hlk : alookup (m ++ " - " ++ s) tr.active_timers = some td)
    (hp : td.paused = true) (hpt : td.pause_time = some p) :
    end_timer wk now (some m) (some s) tr =
      ({ active_timers := dictErase (m ++ " - " ++ s) tr.active_timers
         sessions := tr.sessions ++ [{
           id := tr.sessions.length + 1
           main_category := td.main_category
           subcategory := td.subcategory
           description := td.description
           start_time := TimeRep.iso ((td.initial_start_time).getD p)
           end_time := TimeRep.iso p
           duration := tdStr td.accumulated_seconds
           duration_hours := td.accumulated_seconds / 3600
           week := wk ((td.initial_start_time).getD p) }] }, Except.ok ()) := by
  cases hat : tr.active_timers with
  | nil => rw [hat] at hlk; simp [alookup] at hlk
  | cons hd rest =>
    obtain ⟨k0, td0⟩ := hd
    rw [hat] at hlk
    simp only [end_timer, hat, hm, hs, or_self, if_false, hlk, hp, Bool.not_true,
      Bool.false_eq_true, if_false, hpt]

/-- Claim C1: ending a paused timer by naming its category pair computes the
total elapsed seconds as the accumulated seconds alone, uses the recorded
pause instant as the session end time, and stores duration_hours as the
total seconds divided by 3600. -/
theorem end_timer_paused_claim (wk : ℚ → ℕ) (now : ℚ) (m s : String) (tr : TimeTracker)
    (td : TimerData) (p : ℚ) (hm : m ≠ "") (hs : s ≠ "")
    (hlk : alookup (m ++ " - " ++ s) tr.active_timers = some td)
    (hp : td.paused = true) (hpt : td.pause_time = some p) :
    ∃ sess : Session,
      (end_timer wk now (some m) (some s) tr).1.sessions = tr.sessions ++ [sess] ∧
      (end_timer wk now (some m) (some s) tr).2 = Except.ok () ∧
      sess.duration = tdStr td.accumulated_seconds ∧
      sess.duration_hours = td.accumulated_seconds / 3600 ∧
      sess.end_time = TimeRep.iso p := by
  rw [end_timer_paused_eq wk now m s tr td p hm hs hlk hp hpt]
  exact ⟨_, rfl, rfl, rfl, rfl, rfl⟩

/-- Concrete instance of claim C1. -/
theorem end_timer_paused_claim_witness :
    ∃ sess : Session,
      (end_timer (fun _ => 7) 500 (some "Sales") (some "Direct sales")
          ⟨[("Sales - Direct sales",
             ⟨none, "Sales", "Direct sales", "", 30, true, some 100, none⟩)], []⟩).1.sessions =
        [] ++ [sess] ∧
      (end_timer (fun _ => 7) 500 (some "Sales") (some "Direct sales")
          ⟨[("Sales - Direct sales",
             ⟨none, "Sales", "Direct sales", "", 30, true, some 100, none⟩)], []⟩).2 =
        Except.ok () ∧
      sess.duration = tdStr 30 ∧
      sess.duration_hours = 30 / 3600 ∧
      sess.end_time = TimeRep.iso 100 :=
  end_timer_paused_claim (fun _ => 7) 500 "Sales" "Direct sales"
    ⟨[("Sales - Direct sales",
       ⟨none, "Sales", "Direct sales", "", 30, true, some 100, none⟩)], []⟩
    ⟨none, "Sales", "Direct sales", "", 30, true, some 100, none⟩ 100
    (by decide) (by decide) rfl rfl rfl

theorem alookup_dictInsert {α : Type} (k : String) (v : α) (l : List (String × α)) :
    alookup k (dictInsert k v l) = some v := by
  induction l with
  | nil => simp [alookup, dictInsert]
  | cons hd rest ih =>
    obtain ⟨k0, v0⟩ := hd
    by_cases hk : k0 = k
    · simp [alookup, dictInsert, hk]
    · simp [alookup, dictInsert, hk, ih]

/-- Claim C10: no operation ever writes the initial_start_time key that
end_timer consults (start_timer creates the timer without it, pause_timer
and resume_timer leave it untouched), so finalizing a paused timer stores
the recorded pause instant as the session start time, making start time and
end time equal, with the week field derived from the pause instant. -/
theorem initial_start_claim :
    (∀ (cats : Cats) (wk : ℚ → ℕ) (now : ℚ) (main sub desc : String) (off : ℚ)
        (conf : Bool) (tr tr2 : TimeTracker),
      start_timer cats wk now main sub desc off conf tr = (tr2, Except.ok ()) →
      ∃ td, alookup (main ++ " - " ++ sub) tr2.active_timers = some td ∧
        td.initial_start_time = none) ∧
    (∀ (now : ℚ) (tr tr2 : TimeTracker) (k : String) (td : TimerData),
      tr.active_timers = [(k, td)] → pause_timer now tr = (tr2, Except.ok ()) →
      ∃ td2, tr2.active_timers = [(k, td2)] ∧
        td2.initial_start_time = td.initial_start_time) ∧
    (∀ (now : ℚ) (tr tr2 : TimeTracker) (k : String) (td : TimerData),
      tr.active_timers = [(k, td)] → resume_timer now tr = (tr2, Except.ok ()) →
      ∃ td2, tr2.active_timers = [(k, td2)] ∧
        td2.initial_start_time = td.initial_start_time) ∧
    (∀ (wk : ℚ → ℕ) (now : ℚ) (m s : String) (tr : TimeTracker) (td : TimerData) (p : ℚ),
      m ≠ "" → s ≠ "" → alookup (m ++ " - " ++ s) tr.active_timers = some td →
      td.paused = true → td.pause_time = some p → td.initial_start_time = none →
      ∃ sess : Session,
        (end_timer wk now (some m) (some s) tr).1.sessions = tr.sessions ++ [sess] ∧
        sess.start_time = TimeRep.iso p ∧ sess.end_time = TimeRep.iso p ∧
        sess.week = wk p) := by
  refine ⟨?_, ?_, ?_, ?_⟩
  · intro cats wk now main sub desc off conf tr tr2 hrun
    unfold start_timer at hrun
    by_cases hsub : sub ∈ get_subcategories cats main
    · rw [if_pos hsub] at hrun
      split at hrun
      · simp only [Prod.mk.injEq] at hrun
        obtain ⟨h1, h2⟩ := hrun
        subst h1
        exact ⟨_, alookup_dictInsert _ _ _, rfl⟩
      · split at hrun
        · rcases hsa : stopAll wk now (List.map Prod.fst tr.active_timers) tr with ⟨tr3, e⟩
          rw [hsa] at hrun
          cases e with
          | error msg => simp at hrun
          | ok u =>
            simp only [Prod.mk.injEq] at hrun
            obtain ⟨h1, h2⟩ := hrun
            subst h1
            exact ⟨_, alookup_dictInsert _ _ _, rfl⟩
        · simp at hrun
    · rw [if_neg hsub] at hrun
      simp at hrun
  · intro now tr tr2 k td hat hrun
    simp only [pause_timer, hat] at hrun
    repeat' split at hrun
    all_goals
      first
        | (simp only [Prod.mk.injEq] at hrun
           obtain ⟨h1, h2⟩ := hrun
           subst h1
           exact ⟨_, rfl, rfl⟩)
        | simp at hrun
  · intro now tr tr2 k td hat hrun
    simp only [resume_timer, hat] at hrun
    repeat' split at hrun
    all_goals
      first
        | (simp only [Prod.mk.injEq] at hrun
           obtain ⟨h1, h2⟩ := hrun
           subst h1
           exact ⟨_, rfl, rfl⟩)
        | simp at hrun
  · intro wk now m s tr td p hm hs hlk hp hpt hini
    rw [end_timer_paused_eq wk now m s tr td p hm hs hlk hp hpt]
    exact ⟨_, rfl, by simp [hini], rfl, by simp [hini]⟩

/-- Concrete instance of claim C10: ending a paused timer stores the pause
instant as both start and end time and derives the week from it. -/
theorem initial_start_claim_witness :
    ∃ sess : Session,
      (end_timer (fun _ => 7) 500 (some "Sales") (some "Direct sales")
          ⟨[("Sales - Direct sales",
             ⟨none, "Sales", "Direct sales", "", 30, true, some 100, none⟩)], []⟩).1.sessions =
        [] ++ [sess] ∧
      sess.start_time = TimeRep.iso 100 ∧ sess.end_time = TimeRep.iso 100 ∧
      sess.week = 7 :=
  initial_start_claim.2.2.2 (fun _ => 7) 500 "Sales" "Direct sales"
    ⟨[("Sales - Direct sales",
       ⟨none, "Sales", "Direct sales", "", 30, true, some 100, none⟩)], []⟩
    ⟨none, "Sales", "Direct sales", "", 30, true, some 100, none⟩ 100
    (by decide) (by decide) rfl rfl rfl rfl

/-- Claim C3: every session created by a successful end_timer or add_session
is appended with id equal to the count of sessions present at creation time
plus one; ids are therefore 1-based but not unique across deletions, as the
concrete scenario shows: after removing the session with id 1 from a two
session list, the next add_session assigns id 2, which an existing session
already carries. -/
theorem session_id_claim :
    (∀ (wk : ℚ → ℕ) (now : ℚ) (mo so : Option String) (tr tr2 : TimeTracker) (u : Unit),
      end_timer wk now mo so tr = (tr2, Except.ok u) →
      ∃ sess, tr2.sessions = tr.sessions ++ [sess] ∧ sess.id = tr.sessions.length + 1) ∧
    (∀ (cats : Cats) (wk : ℚ → ℕ) (date hrs : ℚ) (main sub desc : String)
        (tr tr2 : TimeTracker) (s : Session),
      add_session cats wk date hrs main sub desc tr = (tr2, Except.ok s) →
      tr2.sessions = tr.sessions ++ [s] ∧ s.id = tr.sessions.length + 1) ∧
    ((remove_session 1 ⟨[], [sampleSession 1 "Sales" "Direct sales" 1,
        sampleSession 2 "Sales" "Direct sales" 1]⟩).1.sessions =
      [sampleSession 2 "Sales" "Direct sales" 1] ∧
     (add_session [("Sales", ["Direct sales"])] (fun _ => 1) 0 1 "Sales" "Direct sales" ""
        (remove_session 1 ⟨[], [sampleSession 1 "Sales" "Direct sales" 1,
          sampleSession 2 "Sales" "Direct sales" 1]⟩).1).2 =
       Except.ok ⟨2, "Sales", "Direct sales", "", TimeRep.dt 0, TimeRep.dt (0 + 1 * 3600),
         tdStr (1 * 3600), 1, 1⟩ ∧
     (sampleSession 2 "Sales" "Direct sales" 1).id = 2) := by
  refine ⟨?_, ?_, rfl, ?_, rfl⟩
  · intro wk now mo so tr tr2 u hrun
    unfold end_timer at hrun
    repeat' split at hrun
    all_goals
      first
        | (simp only [Prod.mk.injEq] at hrun
           obtain ⟨h1, h2⟩ := hrun
           subst h1
           exact ⟨_, rfl, rfl⟩)
        | simp at hrun
  · intro cats wk date hrs main sub desc tr tr2 s hrun
    unfold add_session at hrun
    split at hrun
    · simp only [Prod.mk.injEq, Except.ok.injEq] at hrun
      obtain ⟨h1, h2⟩ := hrun
      subst h1; subst h2
      exact ⟨rfl, rfl⟩
    · simp at hrun
  · rfl

/-- Concrete instance of claim C3 for add_session on an empty tracker. -/
theorem session_id_claim_witness :
    (⟨[], [⟨1, "Sales", "Direct sales", "", TimeRep.dt 0, TimeRep.dt (0 + 1 * 3600),
        tdStr (1 * 3600), 1, 1⟩]⟩ : TimeTracker).sessions =
      ([] : List Session) ++ [⟨1, "Sales", "Direct sales", "", TimeRep.dt 0,
        TimeRep.dt (0 + 1 * 3600), tdStr (1 * 3600), 1, 1⟩] ∧
    (⟨1, "Sales", "Direct sales", "", TimeRep.dt 0, TimeRep.dt (0 + 1 * 3600),
        tdStr (1 * 3600), 1, 1⟩ : Session).id = ([] : List Session).length + 1 :=
  session_id_claim.2.1 [("Sales", ["Direct sales"])] (fun _ => 1) 0 1 "Sales" "Direct sales" ""
    ⟨[], []⟩
    ⟨[], [⟨1, "Sales", "Direct sales", "", TimeRep.dt 0, TimeRep.dt (0 + 1 * 3600),
      tdStr (1 * 3600), 1, 1⟩]⟩
    ⟨1, "Sales", "Direct sales", "", TimeRep.dt 0, TimeRep.dt (0 + 1 * 3600),
      tdStr (1 * 3600), 1, 1⟩ rfl

theorem decode_encode_timer (td : TimerData) :
    decodeTimerData (encodeTimerData td) = some td := by
  obtain ⟨st, mc, sc, de, ac, pa, pt, ini⟩ := td
  cases st <;> cases pt <;> cases ini <;> rfl

theorem decodeNat_natCast (n : ℕ) : decodeNat (JVal.jnum n) = some n := by
  simp [decodeNat]

theorem decode_encode_session (s : Session) :
    decodeSession (encodeSession s) = some (stringifySession s) := by
  obtain ⟨i, mc, sc, de, st, en, du, dh, wk⟩ := s
  cases st <;> cases en <;>
    simp [encodeSession, decodeSession, alookup, stringifySession, decodeNat_natCast,
      decodeStr, decodeNum, decodeTimeRep, encodeTimeRep, TimeRep.val]

theorem mapMloop_decode_encode_timers (l : List (String × TimerData))
    (acc : List (String × TimerData)) :
    List.mapM.loop (fun p => (decodeTimerData p.2).map (fun td => (p.1, td)))
      (l.map (fun p => (p.1, encodeTimerData p.2))) acc = some (acc.reverse ++ l) := by
  induction l generalizing acc with
  | nil => simp [List.mapM.loop]
  | cons hd tl ih =>
    simp [List.mapM.loop, decode_encode_timer, ih]

theorem mapMloop_decode_encode_sessions (l : List Session) (acc : List Session) :
    List.mapM.loop decodeSession (l.map encodeSession) acc =
      some (acc.reverse ++ l.map stringifySession) := by
  induction l generalizing acc with
  | nil => simp [List.mapM.loop]
  | cons hd tl ih =>
    simp [List.mapM.loop, decode_encode_session, ih]

/-- Claim C7: saving the state with _save_data and reading it back with
_load_data reconstructs the active timers dict unchanged and the sessions
field for field, the only residue being that session timestamps come back
as strings denoting the same instants instead of datetime objects. -/
theorem save_load_claim (tr : TimeTracker) :
    load_data (save_data tr) =
      some ⟨tr.active_timers, tr.sessions.map stringifySession⟩ := by
  obtain ⟨timers, sessions⟩ := tr
  simp [save_data, load_data, alookup, mapMloop_decode_encode_timers,
    mapMloop_decode_encode_sessions]

theorem summaryTotals_fst_gen (ss : List Session) :
    ∀ (a : List (String × ℚ)) (b : List (String × List (String × ℚ))),
      (ss.foldl (fun acc s => (bumpTotal s.main_category s.duration_hours acc.1,
        bumpSub s.main_category s.subcategory s.duration_hours acc.2)) (a, b)).1 =
      ss.foldl (fun acc s => bumpTotal s.main_category s.duration_hours acc) a := by
  induction ss with
  | nil => intro a b; rfl
  | cons hd tl ih => intro a b; exact ih _ _

theorem summaryTotals_fst (ss : List Session) :
    (summaryTotals ss).1 =
      ss.foldl (fun acc s => bumpTotal s.main_category s.duration_hours acc) [] :=
  summaryTotals_fst_gen ss [] []

theorem bumpTotal_keys (k : String) (v : ℚ) (l : List (String × ℚ)) :
    (bumpTotal k v l).map Prod.fst =
      if k ∈ l.map Prod.fst then l.map Prod.fst else l.map Prod.fst ++ [k] := by
  induction l with
  | nil => simp [bumpTotal]
  | cons hd tl ih =>
    obtain ⟨k0, v0⟩ := hd
    by_cases hk : k0 = k
    · simp [bumpTotal, hk]
    · by_cases hmem : k ∈ tl.map Prod.fst
      · simp [bumpTotal, hk, hmem, ih, Ne.symm hk]
      · simp [bumpTotal, hk, hmem, ih, Ne.symm hk]

theorem bumpTotal_keys_nodup (k : String) (v : ℚ) (l : List (String × ℚ))
    (hnd : (l.map Prod.fst).Nodup) : ((bumpTotal k v l).map Prod.fst).Nodup := by
  rw [bumpTotal_keys]
  by_cases hmem : k ∈ l.map Prod.fst
  · simpa [hmem] using hnd
  · simp [hmem, List.nodup_append, hnd]

theorem catTotals_keys_nodup (ss : List Session) :
    ∀ acc : List (String × ℚ), (acc.map Prod.fst).Nodup →
      (((ss.foldl (fun acc s => bumpTotal s.main_category s.duration_hours acc) acc)).map
        Prod.fst).Nodup := by
  induction ss with
  | nil => intro acc h; exact h
  | cons s tl ih =>
    intro acc h
    exact ih _ (bumpTotal_keys_nodup _ _ _ h)

theorem mem_bumpTotal (k : String) (v : ℚ) (l : List (String × ℚ)) (p : String × ℚ)
    (hp : p ∈ bumpTotal k v l) : p.1 = k ∨ p.1 ∈ l.map Prod.fst := by
  induction l with
  | nil =>
    simp [bumpTotal] at hp
    left; rw [hp]
  | cons hd tl ih =>
    obtain ⟨k0, v0⟩ := hd
    by_cases hk : k0 = k
    · simp only [bumpTotal, if_pos hk, List.mem_cons] at hp
      rcases hp with h | h
      · left; rw [h]; exact hk
      · right; exact List.mem_cons_of_mem k0 (List.mem_map_of_mem Prod.fst h)
    · simp only [bumpTotal, if_neg hk, List.mem_cons] at hp
      rcases hp with h | h
      · right; rw [h]; exact List.mem_cons_self k0 _
      · rcases ih h with h2 | h2
        · left; exact h2
        · right; exact List.mem_cons_of_mem k0 h2

theorem mem_catTotals (ss : List Session) :
    ∀ (acc : List (String × ℚ)) (p : String × ℚ),
      p ∈ ss.foldl (fun acc s => bumpTotal s.main_category s.duration_hours acc) acc →
      p.1 ∈ acc.map Prod.fst ∨ p.1 ∈ ss.map Session.main_category := by
  induction ss with
  | nil => intro acc p hp; left; exact List.mem_map_of_mem Prod.fst hp
  | cons s tl ih =>
    intro acc p hp
    rcases ih _ p hp with h | h
    · rw [bumpTotal_keys] at h
      by_cases hmem : s.main_category ∈ acc.map Prod.fst
      · rw [if_pos hmem] at h; left; exact h
      · rw [if_neg hmem] at h
        rcases List.mem_append.mp h with h2 | h2
        · left; exact h2
        · right; simp at h2; simp [h2]
    · right; simp [h]

theorem alookup_none_forall {α : Type} (k : String) (l : List (String × α))
    (h : alookup k l = none) : ∀ p ∈ l, p.1 ≠ k := by
  induction l with
  | nil => intro p hp; simp at hp
  | cons hd tl ih =>
    obtain ⟨k0, v0⟩ := hd
    by_cases hk : k0 = k
    · simp [alookup, hk] at h
    · simp [alookup, hk] at h
      intro p hp
      rcases List.mem_cons.mp hp with h2 | h2
      · rw [h2]; exact hk
      · exact ih h p h2

theorem sum_dictErase (k : String) (l : List (String × ℚ)) (v : ℚ)
    (h : alookup k l = some v) :
    (l.map Prod.snd).sum = v + ((dictErase k l).map Prod.snd).sum := by
  induction l with
  | nil => simp [alookup] at h
  | cons hd tl ih =>
    obtain ⟨k0, v0⟩ := hd
    by_cases hk : k0 = k
    · simp [alookup, hk] at h
      simp [dictErase, hk, h]
    · simp [alookup, hk] at h
      simp only [dictErase, if_neg hk]
      simp [ih h]
      ring

theorem alookup_dictErase_ne {α : Type} (k k2 : String) (hne : k2 ≠ k)
    (l : List (String × α)) : alookup k2 (dictErase k l) = alookup k2 l := by
  induction l with
  | nil => rfl
  | cons hd tl ih =>
    obtain ⟨k0, v0⟩ := hd
    by_cases hk : k0 = k
    · subst hk
      have : ¬k0 = k2 := fun he => hne (he ▸ rfl)
      simp [dictErase, alookup, this]
    · simp [dictErase, alookup, hk, ih]

theorem dictErase_sublist {α : Type} (k : String) (l : List (String × α)) :
    List.Sublist (dictErase k l) l := by
  induction l with
  | nil => exact List.Sublist.refl []
  | cons hd tl ih =>
    obtain ⟨k0, v0⟩ := hd
    by_cases hk : k0 = k
    · simp [dictErase, hk]
    · simpa [dictErase, hk] using ih.cons₂ (k0, v0)

theorem dictErase_keys_ne (k : String) (l : List (String × ℚ))
    (hnd : (l.map Prod.fst).Nodup) : ∀ p ∈ dictErase k l, p.1 ≠ k := by
  induction l with
  | nil => intro p hp; simp [dictErase] at hp
  | cons hd tl ih =>
    obtain ⟨k0, v0⟩ := hd
    simp only [List.map_cons, List.nodup_cons] at hnd
    obtain ⟨hk0, hndtl⟩ := hnd
    by_cases hk : k0 = k
    · subst hk
      intro p hp
      simp [dictErase] at hp
      intro he
      exact hk0 (he ▸ List.mem_map_of_mem Prod.fst hp)
    · intro p hp
      simp [dictErase, hk] at hp
      rcases hp with h | h
      · rw [h]; exact hk
      · exact ih hndtl p h

theorem sum_filterMap_alookup (ks : List String) :
    ∀ l : List (String × ℚ), ks.Nodup → (l.map Prod.fst).Nodup →
      (∀ p ∈ l, p.1 ∈ ks) →
      (ks.filterMap (fun k => alookup k l)).sum = (l.map Prod.snd).sum := by
  induction ks with
  | nil =>
    intro l _ _ hsub
    cases l with
    | nil => rfl
    | cons p r => exact absurd (hsub p (List.mem_cons_self p r)) (List.not_mem_nil p.1)
  | cons k ks ih =>
    intro l hndk hndl hsub
    obtain ⟨hknotin, hndks⟩ := List.nodup_cons.mp hndk
    cases hlk : alookup k l with
    | none =>
      have hne := alookup_none_forall k l hlk
      have hsub2 : ∀ p ∈ l, p.1 ∈ ks := fun p hp =>
        (List.mem_cons.mp (hsub p hp)).resolve_left (hne p hp)
      simp only [List.filterMap_cons, hlk]
      exact ih l hndks hndl hsub2
    | some v =>
      have hsubl := dictErase_sublist k l
      have herase_nd : ((dictErase k l).map Prod.fst).Nodup :=
        (hsubl.map Prod.fst).nodup hndl
      have hsub3 : ∀ p ∈ dictErase k l, p.1 ∈ ks := by
        intro p hp
        rcases List.mem_cons.mp (hsub p (hsubl.subset hp)) with h | h
        · exact absurd h (dictErase_keys_ne k l hndl p hp)
        · exact h
      have hcongr : ∀ k2 ∈ ks, alookup k2 l = alookup k2 (dictErase k l) := by
        intro k2 hk2
        exact (alookup_dictErase_ne k k2 (fun he => hknotin (he ▸ hk2)) l).symm
      calc (List.filterMap (fun k2 => alookup k2 l) (k :: ks)).sum
          = v + (List.filterMap (fun k2 => alookup k2 l) ks).sum := by
            simp [List.filterMap_cons, hlk]
        _ = v + (List.filterMap (fun k2 => alookup k2 (dictErase k l)) ks).sum := by
            rw [List.filterMap_congr hcongr]
        _ = v + ((dictErase k l).map Prod.snd).sum := by
            rw [ih (dictErase k l) hndks herase_nd hsub3]
        _ = (l.map Prod.snd).sum := (sum_dictErase k l v hlk).symm

theorem printedSum_eq_filterMap (cats : Cats) (ss : List Session) :
    summaryPrintedSum cats ss =
      ((cats.map Prod.fst).filterMap (fun mc => alookup mc (summaryTotals ss).1)).sum := by
  unfold summaryPrintedSum summaryPrintedGroups
  rw [List.map_filterMap]
  congr 1
  apply List.filterMap_congr
  intro mc _
  cases alookup mc (summaryTotals ss).1 <;> rfl

/-- Claim C8 counterexample: the grand total sums category_totals over all
sessions, but a session whose main category does not occur in the taxonomy
gets no printed group, so for the non-empty filtered list consisting of one
such session the grand total differs from the sum of the printed per main
category subtotals. -/
theorem summary_total_cex :
    summaryGrandTotal [sampleSession 1 "Elsewhere" "Other" 1] ≠
      summaryPrintedSum [("Sales", ["Direct sales"])]
        [sampleSession 1 "Elsewhere" "Other" 1] := by
  intro h
  rw [show summaryGrandTotal [sampleSession 1 "Elsewhere" "Other" 1] = 1 by
      norm_num [summaryGrandTotal, summaryTotals, bumpTotal, bumpSub, sampleSession]] at h
  rw [show summaryPrintedSum [("Sales", ["Direct sales"])]
        [sampleSession 1 "Elsewhere" "Other" 1] = 0 by
      simp +decide [summaryPrintedSum, summaryPrintedGroups, summaryTotals, bumpTotal,
        bumpSub, sampleSession, alookup, List.filterMap_cons]] at h
  exact absurd h (by norm_num)

/-- Claim C8, amended: when every session of the non-empty filtered list has
its main category in the taxonomy (which sessions created through the
validated operations always do) and the taxonomy keys are distinct, the
summary report grand total equals the sum of the printed per main category
subtotals; in particular a single 1.0 hour session yields grand total 1.00
equal to its printed subtotal. -/
theorem summary_total_claim (cats : Cats) (ss : List Session)
    (hnd : (cats.map Prod.fst).Nodup)
    (hmem : ∀ s ∈ ss, s.main_category ∈ cats.map Prod.fst) :
    summaryGrandTotal ss = summaryPrintedSum cats ss := by
  have htotnd : ((summaryTotals ss).1.map Prod.fst).Nodup := by
    rw [summaryTotals_fst]
    exact catTotals_keys_nodup ss [] (by simp)
  have hsub : ∀ p ∈ (summaryTotals ss).1, p.1 ∈ cats.map Prod.fst := by
    intro p hp
    rw [summaryTotals_fst] at hp
    rcases mem_catTotals ss [] p hp with h | h
    · simp at h
    · rcases List.mem_map.mp h with ⟨s, hs, he⟩
      exact he ▸ hmem s hs
  rw [printedSum_eq_filterMap,
    sum_filterMap_alookup (cats.map Prod.fst) (summaryTotals ss).1 hnd htotnd hsub]
  rfl

/-- Concrete instance of the amended claim C8: one Sales session of 1.0
hours gives a grand total equal to the printed subtotal, namely 1.00. -/
theorem summary_total_claim_witness :
    summaryGrandTotal [sampleSession 1 "Sales" "Direct sales" 1] =
      summaryPrintedSum [("Sales", ["Direct sales"])]
        [sampleSession 1 "Sales" "Direct sales" 1] ∧
    summaryGrandTotal [sampleSession 1 "Sales" "Direct sales" 1] = 1 :=
  ⟨summary_total_claim [("Sales", ["Direct sales"])]
      [sampleSession 1 "Sales" "Direct sales" 1] (by decide) (by decide),
   by norm_num [summaryGrandTotal, summaryTotals, bumpTotal, bumpSub, sampleSession]⟩
